import Mathlib

/-!
Verification of the interactive chess-training session coordinator
(`chess_train.py`) against its specification.

The Python source is shallowly embedded below.  External collaborators
(the `chess` rules library, the engine subprocess, `pickle`) are modelled
as explicit oracles/parameters or, for the serializer, as a field-wise
codec of the full board state; the coordinator's own control flow is
translated line by line.
-/

namespace ChessTrain

/-- Colors follow the Python `chess` library encoding:
`chess.WHITE = True`, `chess.BLACK = False`. -/
abbrev Color := Bool

/-- The six chess piece kinds (model of `chess.PieceType`). -/
inductive PieceKind
  | pawn | knight | bishop | rook | queen | king
deriving DecidableEq, Repr

/-- A piece: color plus kind (model of `chess.Piece`). -/
structure Piece where
  white : Bool
  kind : PieceKind
deriving DecidableEq, Repr

/-- Model of `chess.Board`: the full state a position snapshot must carry
(piece placement over the 64 squares a1..h8, side to move, castling
rights bitmask, en-passant square, half-move clock, full-move number).
Move generation and terminal detection are delegated to the external
rules library, modelled as a `Rules` oracle below. -/
structure Board where
  placement : List (Option Piece)
  turn : Color
  castlingRights : Nat
  epSquare : Option Nat
  halfmoveClock : Nat
  fullmoveNumber : Nat
deriving DecidableEq, Repr

/-- Back rank piece kinds, files a..h. -/
def backRank : List PieceKind :=
  [.rook, .knight, .bishop, .queen, .king, .bishop, .knight, .rook]

/-- The standard initial position (`chess.Board()`). -/
def Board.start : Board :=
  { placement :=
      (backRank.map fun k => some ⟨true, k⟩)
      ++ (List.replicate 8 (some ⟨true, .pawn⟩))
      ++ (List.replicate 32 none)
      ++ (List.replicate 8 (some ⟨false, .pawn⟩))
      ++ (backRank.map fun k => some ⟨false, k⟩)
    turn := true
    castlingRights := 15
    epSquare := none
    halfmoveClock := 0
    fullmoveNumber := 1 }

/-- A coordinate (UCI) move: source and destination square given as
file/rank indices 0..7, with an optional promotion piece character
(model of `chess.Move`). -/
structure Move where
  fromFile : Nat
  fromRank : Nat
  toFile : Nat
  toRank : Nat
  promo : Option Char
deriving DecidableEq, Repr

instance : Inhabited Move := ⟨⟨0, 0, 0, 0, none⟩⟩

/-- `[a-h]` character class of the UCI regex. -/
def isFileChar (c : Char) : Bool := 'a' ≤ c && c ≤ 'h'

/-- `[1-8]` character class of the UCI regex. -/
def isRankChar (c : Char) : Bool := '1' ≤ c && c ≤ '8'

/-- `[qrbn]` character class of the UCI regex. -/
def isPromoChar (c : Char) : Bool := c = 'q' || c = 'r' || c = 'b' || c = 'n'

/-- `is_uci_move`: does the string match `^[a-h][1-8][a-h][1-8][qrbn]?$`? -/
def is_uci_move (s : String) : Bool :=
  match s.data with
  | [a, b, c, d] => isFileChar a && isRankChar b && isFileChar c && isRankChar d
  | [a, b, c, d, e] =>
      isFileChar a && isRankChar b && isFileChar c && isRankChar d && isPromoChar e
  | _ => false

/-- `chess.Move.from_uci`: parse a coordinate move; `none` models the
`ValueError` the library raises on a malformed string. -/
def from_uci (s : String) : Option Move :=
  match s.data with
  | [a, b, c, d] =>
      if isFileChar a && isRankChar b && isFileChar c && isRankChar d then
        some ⟨a.toNat - 97, b.toNat - 49, c.toNat - 97, d.toNat - 49, none⟩
      else none
  | [a, b, c, d, e] =>
      if isFileChar a && isRankChar b && isFileChar c && isRankChar d && isPromoChar e then
        some ⟨a.toNat - 97, b.toNat - 49, c.toNat - 97, d.toNat - 49, some e⟩
      else none
  | _ => none

/-- `chess.Move.uci` / `str(move)`: render the move back to coordinate
notation. -/
def Move.uci (m : Move) : String :=
  ⟨[Char.ofNat (97 + m.fromFile), Char.ofNat (49 + m.fromRank),
    Char.ofNat (97 + m.toFile), Char.ofNat (49 + m.toRank)]⟩
  ++ (match m.promo with | some c => ⟨[c]⟩ | none => "")

/-- `get_user_move(board, user_input)`: reject input that does not match
the UCI pattern, parse it, and reject moves outside the legal-move set.
`Except.error` models the raised `ValueError`; `legal` is the rules
library's `move in board.legal_moves` test. -/
def get_user_move (legal : Move → Bool) (user_input : String) : Except Unit Move :=
  if ¬ is_uci_move user_input then .error ()
  else
    match from_uci user_input with
    | none => .error ()
    | some move => if legal move then .ok move else .error ()

/-- An engine evaluation as reported by `result["score"].relative`:
either a centipawn score or a forced-mate marker (model of
`chess.engine.Score`). -/
inductive EngineScore
  | cp (n : Int)
  | mate (n : Int)
deriving DecidableEq, Repr

instance : Inhabited EngineScore := ⟨.cp 0⟩

/-- `Score.score()` of the `chess.engine` library: the centipawn value,
or `None` for a mate score. -/
def relative_score : EngineScore → Option Int
  | .cp n => some n
  | .mate _ => none

/-- Model of `chess.engine.PlayResult`: the object returned by
`engine.play`, whose `.move` field holds the chosen move. -/
structure PlayResult where
  move : Move
deriving DecidableEq, Repr

instance : Inhabited PlayResult := ⟨⟨default⟩⟩

/-- The Python exceptions the coordinator can raise uncaught. -/
inductive PyError
  | typeError
  | attributeError
  | valueError
deriving DecidableEq, Repr

/-- Model of `chess.engine.Limit`: optional search bounds.
`chess.engine.Limit()` (all fields `None`) is the unconstrained default. -/
structure EngineLimit where
  time : Option Int := none
  depth : Option Int := none
  nodes : Option Int := none
  mate : Option Int := none
deriving DecidableEq, Repr

/-- The unconstrained `chess.engine.Limit()` used by the `!bestMove`
branch. -/
def EngineLimit.unconstrained : EngineLimit := {}

/-- Kind of request sent to the engine subprocess. -/
inductive ReqKind
  | play
  | analyse
deriving DecidableEq, Repr

/-- One request issued to the engine subprocess, recording the limit and
the options mapping passed with it. -/
structure EngineRequest where
  kind : ReqKind
  limit : EngineLimit
  options : List (String × String)
deriving DecidableEq, Repr

end ChessTrain

namespace ChessTrain

/-! ### Win-probability estimator (`calculate_win_probabilities`) -/

/-- The arithmetic core of `calculate_win_probabilities` once
`evaluation_score` is a centipawn integer: the three-way branch on the
sign of the score (lines 53-61 of the source).  Python float arithmetic
is modelled as real arithmetic. -/
noncomputable def win_probs_of_cp (e : Int) : ℝ × ℝ :=
  if 0 < e then
    (1 / (1 + (10 : ℝ) ^ (-(e : ℝ) / 400)),
     1 - 1 / (1 + (10 : ℝ) ^ (-(e : ℝ) / 400)))
  else if e < 0 then
    (1 - 1 / (1 + (10 : ℝ) ^ ((e : ℝ) / 400)),
     1 / (1 + (10 : ℝ) ^ ((e : ℝ) / 400)))
  else (0.5, 0.5)

/-- `calculate_win_probabilities` after the `engine.analyse` call: takes
the reported relative score.  A mate marker makes `evaluation_score`
`None`, and `None > 0` raises `TypeError` in Python 3. -/
noncomputable def calculate_win_probabilities (score : EngineScore) :
    Except PyError (ℝ × ℝ) :=
  match relative_score score with
  | none => .error .typeError
  | some e => .ok (win_probs_of_cp e)

/-- The source's estimator with the side the relative score is computed
from (the `board.turn` available to the function) made explicit: the
computation ignores it entirely. -/
noncomputable def calculate_win_probabilities_rel (relWhite : Bool) (e : Int) : ℝ × ℝ :=
  win_probs_of_cp e

/-- The estimator as the SPEC describes it (for comparison only):
`pWhite = 1 / (1 + 10^(-e/400))` when the relative side is White, and
the complementary transform when the relative side is Black. -/
noncomputable def spec_win_probabilities (relWhite : Bool) (e : Int) : ℝ × ℝ :=
  if relWhite then
    (1 / (1 + (10 : ℝ) ^ (-(e : ℝ) / 400)),
     1 - 1 / (1 + (10 : ℝ) ^ (-(e : ℝ) / 400)))
  else
    (1 - 1 / (1 + (10 : ℝ) ^ (-(e : ℝ) / 400)),
     1 / (1 + (10 : ℝ) ^ (-(e : ℝ) / 400)))

/-! ### Player-side resolution (`__main__`, lines 205-208) -/

/-- A Python value that can end up in the `player_side` variable before
line 208: a string from the config file, or the boolean drawn by
`random.choice([chess.BLACK, chess.WHITE])`. -/
inductive PyVal
  | str (s : String)
  | boolv (b : Bool)
deriving DecidableEq, Repr

/-- Python `==` between such a value and a string literal: a `bool`
never equals a `str`. -/
def py_eq_str : PyVal → String → Bool
  | .str t, u => t = u
  | .boolv _, _ => false

/-- Lines 205-207: the configured side string if present, otherwise the
random draw. -/
def player_side_raw (cfgSide : Option String) (randomDraw : Bool) : PyVal :=
  match cfgSide with
  | some s => .str s
  | none => .boolv randomDraw

/-- Line 208: `player_side = chess.WHITE if player_side == 'WHITE' else
chess.BLACK`. -/
def player_side_of (cfgSide : Option String) (randomDraw : Bool) : Color :=
  if py_eq_str (player_side_raw cfgSide randomDraw) "WHITE" then true else false

/-! ### Config wiring (`__main__`) -/

/-- The configuration file contents as parsed by the (case-sensitive)
`ConfigParser`: each section an association list of its options. -/
structure ConfigData where
  playerSide : Option String := none
  showScore : Option Bool := none
  engineSection : Option (List (String × String)) := none
  logFile : Option String := none
deriving DecidableEq, Repr

/-- Lines 224-225: `engine_config = dict(config['EngineConfig']) if
config.has_section('EngineConfig') else {}` — the whole section,
`path` key included. -/
def engine_config_of (cfg : ConfigData) : List (String × String) :=
  match cfg.engineSection with
  | some sec => sec
  | none => []

/-- Lines 219-221: the engine binary path option, with its default. -/
def engine_path_of (cfg : ConfigData) : String :=
  match cfg.engineSection with
  | some sec =>
      match sec.lookup "path" with
      | some p => p
      | none => "stockfish/stockfish-ubuntu-x86-64-avx2"
  | none => "stockfish/stockfish-ubuntu-x86-64-avx2"

/-! ### Snapshot serialization (`pickle.dump` / `pickle.load` of a Board)

Modelled from the spec: the save/resume snapshot uses Python's `pickle`
(an external library, not repository code), whose contract is to
reproduce the serialized object's full state on load.  It is modelled
here as a concrete field-wise codec of the full `Board` state. -/

/-- Encode one square's contents as a natural number. -/
def encPiece : Option Piece → Nat
  | none => 0
  | some p => 1 + (if p.white then 0 else 6) +
      (match p.kind with
       | .pawn => 0 | .knight => 1 | .bishop => 2
       | .rook => 3 | .queen => 4 | .king => 5)

/-- Piece kind from an index 0..5. -/
def kindOfIdx : Nat → PieceKind
  | 0 => .pawn | 1 => .knight | 2 => .bishop
  | 3 => .rook | 4 => .queen | _ => .king

/-- Decode one square's contents; `none` on an invalid code. -/
def decPiece : Nat → Option (Option Piece)
  | 0 => some none
  | n + 1 =>
      if n < 12 then some (some ⟨n < 6, kindOfIdx (n % 6)⟩) else none

/-- Decode a list of codes elementwise, failing if any code is invalid. -/
def decNats {α : Type} (dec : Nat → Option α) : List Nat → Option (List α)
  | [] => some []
  | n :: rest =>
      match dec n, decNats dec rest with
      | some a, some as => some (a :: as)
      | _, _ => none

/-- `snapshotForResume` (`pickle.dump(board, file)` at line 148):
serialize the full board state to a byte stream, modelled as a list of
naturals. -/
def snapshotForResume (b : Board) : List Nat :=
  (if b.turn then 1 else 0) ::
  b.castlingRights ::
  (match b.epSquare with | none => 0 | some s => s + 1) ::
  b.halfmoveClock ::
  b.fullmoveNumber ::
  b.placement.map encPiece

/-- `restoreFromSnapshot` (`pickle.load(file)` at line 243): rebuild the
board from a serialized stream. -/
def restoreFromSnapshot : List Nat → Option Board
  | t :: c :: ep :: h :: f :: rest =>
      match decNats decPiece rest with
      | some pl =>
          some { placement := pl
                 turn := t = 1
                 castlingRights := c
                 epSquare := if ep = 0 then none else some (ep - 1)
                 halfmoveClock := h
                 fullmoveNumber := f }
      | none => none
  | _ => none

/-! ### Session coordinator state machine (`play_chess`) -/

/-- One line of the transcript log (or of the console output that the
claims track).  The win-probability annotation is kept symbolically as
the centipawn score and player side it is computed from; the real value
it denotes is `calculate_win_probabilities_rel`. -/
inductive LogLine
  | headerLine (s : String)
  | probLine (e : Int) (playerSide : Color)
  | moveLine (mainline : List Move)
  | resultLine (s : String)
  | infoLine (s : String)
deriving DecidableEq, Repr

/-- The mutable state the `play_chess` loop threads: the board, the pgn
mainline (`node`), the transcript written so far, the probability and
informational lines printed to the console, the snapshot files written,
the engine requests issued, and how many times `engine.analyse` has been
called. -/
structure SessionState where
  board : Board
  nodeMoves : List Move := []
  transcript : List LogLine := []
  printed : List LogLine := []
  savedFiles : List (String × Board) := []
  requests : List EngineRequest := []
  evalCount : Nat := 0
deriving DecidableEq, Repr

/-- The configuration data `play_chess` closes over (its parameters). -/
structure LoopCtx where
  playerSide : Color
  showScore : Bool
  logEnabled : Bool
  limits : EngineLimit
  engineConfig : List (String × String)
deriving DecidableEq, Repr

/-- The external rules library (`chess`), as the oracle functions the
coordinator consumes: the legal-move test, `board.push`,
`board.is_game_over` and `board.result()`. -/
structure Rules where
  legal : Board → Move → Bool
  push : Board → Move → Board
  gameOver : Board → Bool
  resultString : Board → String

/-- Outcome of one iteration of the `while` body. -/
inductive StepOutcome
  | continued (s : SessionState)
  | savedExit (path : String) (s : SessionState)
  | raised (e : PyError) (s : SessionState)
deriving Repr

/-- The state carried by a step outcome. -/
def StepOutcome.state : StepOutcome → SessionState
  | .continued s => s
  | .savedExit _ s => s
  | .raised _ s => s

/-- Lines 169-178: `board.push(move)` through the transcript writes.
The pushed value is whatever the dynamically-typed `move` variable
holds: a `Move` (user or engine branch) or, in the `!bestMove` branch,
the whole `PlayResult` returned by `engine.play` — pushing that raises
(`PlayResult` has no move attributes).  After the push the source
re-parses the pushed move (`chess.Move.from_uci(str(board.peek()))`)
for `node.add_main_variation`; `scoreInfo` is the centipawn score of
this iteration's `engine.analyse` call when `show_score` is on. -/
def after_move (ctx : LoopCtx) (rules : Rules) (s : SessionState)
    (scoreInfo : Option Int) (mv : Move ⊕ PlayResult) : StepOutcome :=
  match mv with
  | .inr _ => .raised .attributeError s
  | .inl m =>
      let board2 := rules.push s.board m
      match from_uci (Move.uci m) with
      | none => .raised .valueError {s with board := board2}
      | some m2 =>
          let nodeMoves2 := s.nodeMoves ++ [m2]
          let transcript2 :=
            if ctx.logEnabled then
              s.transcript
              ++ (match scoreInfo with
                  | some e => [LogLine.probLine e ctx.playerSide]
                  | none => [])
              ++ [LogLine.moveLine nodeMoves2]
            else s.transcript
          .continued { s with board := board2, nodeMoves := nodeMoves2,
                              transcript := transcript2 }

/-- Lines 136-167: the command dispatch of one loop iteration, after the
optional win-probability block.  `user_input` is the line read when it
is the player's turn; `engineRes` is the engine's `PlayResult` when the
engine is asked to play; `ts` is `datetime.now().strftime("%Y%m%d%H%M%S")`. -/
def loop_body_after_eval (ctx : LoopCtx) (rules : Rules) (s : SessionState)
    (scoreInfo : Option Int) (user_input : String) (engineRes : PlayResult)
    (ts : String) : StepOutcome :=
  if s.board.turn = ctx.playerSide then
    if user_input = "!help" then .continued s
    else if user_input = "!saveState" ∨ user_input.take 11 = "!saveState " then
      -- `user_input.split(' ', 2)[1]`: the text between the first space
      -- (at index 10) and the next space; `.strip()` modelled by `trim`.
      let argStr := (user_input.drop 11).takeWhile (fun c => c ≠ ' ')
      let save_file_path :=
        if 11 < user_input.length ∧ argStr.trim ≠ "" then argStr
        else "log_" ++ ts ++ ".chess"
      .savedExit save_file_path
        { s with savedFiles := s.savedFiles ++ [(save_file_path, s.board)],
                 printed := s.printed
                   ++ [.infoLine ("Saved chess game in " ++ save_file_path)] }
    else if user_input = "!bestMove" then
      -- line 156: `move = engine.play(board, chess.engine.Limit())` —
      -- the PlayResult itself, not its `.move` field.
      after_move ctx rules
        { s with requests := s.requests
            ++ [⟨.play, EngineLimit.unconstrained, []⟩] }
        scoreInfo (.inr engineRes)
    else
      match get_user_move (rules.legal s.board) user_input with
      | .error _ => .continued s
      | .ok m => after_move ctx rules s scoreInfo (.inl m)
  else
    -- lines 163-167: engine turn; note `result.move` is used here.
    after_move ctx rules
      { s with requests := s.requests
          ++ [⟨.play, ctx.limits, ctx.engineConfig⟩] }
      scoreInfo (.inl engineRes.move)

/-- One full iteration of the `while not board.is_game_over()` body
(lines 127-178).  When `show_score` is set the iteration first calls
`engine.analyse` (recorded as a request and in `evalCount`); a mate
marker makes `evaluation_score` `None` and `None > 0` raises
`TypeError`, otherwise the player's win probability is printed. -/
def loop_body (ctx : LoopCtx) (rules : Rules) (s : SessionState)
    (evalRes : EngineScore) (user_input : String) (engineRes : PlayResult)
    (ts : String) : StepOutcome :=
  if ctx.showScore then
    let s1 := { s with evalCount := s.evalCount + 1,
                       requests := s.requests ++ [⟨.analyse, ctx.limits, []⟩] }
    match relative_score evalRes with
    | none => .raised .typeError s1
    | some e =>
        loop_body_after_eval ctx rules
          { s1 with printed := s1.printed ++ [.probLine e ctx.playerSide] }
          (some e) user_input engineRes ts
  else loop_body_after_eval ctx rules s none user_input engineRes ts

/-- Lines 101-114: the transcript header block, written only when a log
file was supplied. -/
def header_lines (playerSide : Color) (limits : EngineLimit) (dt : String) :
    List LogLine :=
  [.headerLine (String.mk (List.replicate 50 '=')),
   .headerLine (dt ++ " | CHESS TRAIN"),
   .headerLine (String.mk (List.replicate 50 '-')),
   .headerLine ("\tPlayer side: " ++ (if playerSide then "WHITE" else "BLACK")),
   .headerLine "\tEngine Limits"]
  ++ (match limits.time with
      | some v => [LogLine.headerLine ("\t\ttime: " ++ toString v)]
      | none => [])
  ++ (match limits.depth with
      | some v => [LogLine.headerLine ("\t\tdepth: " ++ toString v)]
      | none => [])
  ++ (match limits.nodes with
      | some v => [LogLine.headerLine ("\t\tnodes: " ++ toString v)]
      | none => [])
  ++ (match limits.mate with
      | some v => [LogLine.headerLine ("\t\tmate: " ++ toString v)]
      | none => [])
  ++ [.headerLine (String.mk (List.replicate 50 '='))]

/-- Lines 101-123: `play_chess` before the loop — header writes (only
with a log file) and initial board (the resumed game if given,
`chess.Board()` otherwise). -/
def play_chess_init (ctx : LoopCtx) (saved_game : Option Board) (dt : String) :
    SessionState :=
  { board := match saved_game with | some b => b | none => Board.start
    transcript :=
      if ctx.logEnabled then header_lines ctx.playerSide ctx.limits dt else [] }

/-- Outcome of driving the loop to an exit (or running out of scripted
interaction). -/
inductive RunOutcome
  | finishedOk (s : SessionState)
  | finishedRaised (e : PyError) (s : SessionState)
  | savedExit (path : String) (s : SessionState)
  | outOfFuel (s : SessionState)
deriving Repr

/-- The state carried by a run outcome. -/
def RunOutcome.state : RunOutcome → SessionState
  | .finishedOk s => s
  | .finishedRaised _ s => s
  | .savedExit _ s => s
  | .outOfFuel s => s

/-- Lines 180-183: after the loop ends because the game is over, print
"Game Over" and the result, then write the result line to the log —
unconditionally, even when no log file was supplied (`log_file` is
`None` there, so `log_file.write` raises `AttributeError`). -/
def epilogue (ctx : LoopCtx) (rules : Rules) (s : SessionState) : RunOutcome :=
  let s1 := { s with printed := s.printed
                ++ [.resultLine (rules.resultString s.board)] }
  if ctx.logEnabled then
    .finishedOk { s1 with transcript := s1.transcript
                    ++ [.resultLine (rules.resultString s.board)] }
  else .finishedRaised .attributeError s1

/-- The `while not board.is_game_over()` loop, driven by scripted user
inputs, analysis answers and engine moves (consumed in program order);
`fuel` bounds the number of iterations examined. -/
def run (ctx : LoopCtx) (rules : Rules) (ts : String) :
    Nat → List String → List EngineScore → List PlayResult → SessionState →
    RunOutcome
  | 0, _, _, _, s => .outOfFuel s
  | fuel + 1, inputs, evals, emoves, s =>
      if rules.gameOver s.board then epilogue ctx rules s
      else if ctx.showScore ∧ evals = [] then .outOfFuel s
      else if s.board.turn = ctx.playerSide ∧ inputs = [] then .outOfFuel s
      else if ¬ s.board.turn = ctx.playerSide ∧ emoves = [] then .outOfFuel s
      else
        let evals' := if ctx.showScore then evals.tail else evals
        let inputs' := if s.board.turn = ctx.playerSide then inputs.tail else inputs
        let emoves' := if s.board.turn = ctx.playerSide then emoves else emoves.tail
        match loop_body ctx rules s (evals.headD default) (inputs.headD "")
            (emoves.headD default) ts with
        | .continued s' => run ctx rules ts fuel inputs' evals' emoves' s'
        | .savedExit p s' => .savedExit p s'
        | .raised e s' => .finishedRaised e s'

/-! ### Concrete fixtures for evaluating the model on specific runs -/

/-- A rules oracle whose answers agree with the chess library on the
traces below: every queried move is legal, pushing flips the side to
move, and the positions reached are not game over. -/
def rulesFlip : Rules :=
  { legal := fun _ _ => true
    push := fun b _ => { b with turn := ! b.turn }
    gameOver := fun _ => false
    resultString := fun _ => "*" }

/-- A rules oracle under which no move is legal (as for an entered move
outside the current legal-move set). -/
def rulesNoLegal : Rules :=
  { legal := fun _ _ => false
    push := fun b _ => b
    gameOver := fun _ => false
    resultString := fun _ => "*" }

/-- A rules oracle for a position that is already game over. -/
def rulesOverNow : Rules :=
  { legal := fun _ _ => true
    push := fun b _ => b
    gameOver := fun _ => true
    resultString := fun _ => "1-0" }

/-- Session configuration: play White, show the score, log enabled. -/
def ctxShowLog : LoopCtx :=
  { playerSide := true, showScore := true, logEnabled := true,
    limits := {}, engineConfig := [] }

/-- Session configuration: play White, no score display, no log file. -/
def ctxNoLog : LoopCtx :=
  { playerSide := true, showScore := false, logEnabled := false,
    limits := {}, engineConfig := [] }

/-- A configuration file with an `[EngineConfig]` section holding the
engine binary path and one engine option. -/
def cfgWithEngine : ConfigData :=
  { engineSection := some [("path", "engines/stockfish"), ("Threads", "4")] }

/-- Session configuration derived from `cfgWithEngine` with the human
playing Black (so White to move is the engine's turn). -/
def ctxEngineCfg : LoopCtx :=
  { playerSide := false, showScore := false, logEnabled := false,
    limits := { time := some 1 }, engineConfig := engine_config_of cfgWithEngine }

/-- The run of the C9 scenario: score display on, the human answers
`!help` first and then plays `e2e4`. -/
def c9run : RunOutcome :=
  run ctxShowLog rulesFlip "20240101000000" 2 ["!help", "e2e4"]
    [.cp 10, .cp 20] [] (play_chess_init ctxShowLog none "d")

/-! ## Helper lemmas -/

/-- Decoding inverts encoding on one square. -/
theorem decPiece_encPiece (p : Option Piece) : decPiece (encPiece p) = some p := by
  rcases p with _ | ⟨w, k⟩
  · rfl
  · cases w <;> cases k <;> rfl

/-- Decoding inverts encoding on a placement list. -/
theorem decNats_map_encPiece (l : List (Option Piece)) :
    decNats decPiece (l.map encPiece) = some l := by
  induction l with
  | nil => rfl
  | cons a t ih => simp [decNats, decPiece_encPiece, ih]

/-! ## Claims -/

/-- Claim C3: (code bug) with no configured side, the draw of
`random.choice([chess.BLACK, chess.WHITE])` is compared to the string
`'WHITE'`, which a `bool` never equals, so the player side is always
Black regardless of the draw; the explicit settings do work. -/
theorem c3_default_side_never_white :
    (∀ d : Bool, player_side_of none d = false)
    ∧ (∀ d : Bool, player_side_of (some "WHITE") d = true)
    ∧ (∀ d : Bool, player_side_of (some "BLACK") d = false) := by
  refine ⟨?_, ?_, ?_⟩ <;> decide

/-- Claim C7: restoring a position from its resume snapshot yields the
identical board, hence the same legal-move set, side to move, draw-rule
counters and terminal status under any rules oracle. -/
theorem c7_snapshot_roundtrip (p : Board) (rules : Rules) :
    restoreFromSnapshot (snapshotForResume p) = some p
    ∧ (restoreFromSnapshot (snapshotForResume p)).map Board.turn = some p.turn
    ∧ (restoreFromSnapshot (snapshotForResume p)).map Board.halfmoveClock
        = some p.halfmoveClock
    ∧ (restoreFromSnapshot (snapshotForResume p)).map (fun q => rules.legal q)
        = some (rules.legal p)
    ∧ (restoreFromSnapshot (snapshotForResume p)).map (fun q => rules.gameOver q)
        = some (rules.gameOver p) := by
  have h : restoreFromSnapshot (snapshotForResume p) = some p := by
    rcases p with ⟨pl, t, c, ep, h, f⟩
    cases t <;> rcases ep with _ | sq <;>
      simp [snapshotForResume, restoreFromSnapshot, decNats_map_encPiece]
  exact ⟨h, by rw [h]; rfl, by rw [h]; rfl, by rw [h]; rfl, by rw [h]; rfl⟩

/-- The complement of one logistic value is the logistic value at the
negated exponent. -/
theorem one_sub_inv_logistic (y : ℝ) :
    1 - 1 / (1 + (10 : ℝ) ^ y) = 1 / (1 + (10 : ℝ) ^ (-y)) := by
  have hy : (0 : ℝ) < (10 : ℝ) ^ y := Real.rpow_pos_of_pos (by norm_num) y
  have hinv : (10 : ℝ) ^ (-y) = ((10 : ℝ) ^ y)⁻¹ :=
    Real.rpow_neg (by norm_num) y
  have h1 : (1 : ℝ) + (10 : ℝ) ^ y ≠ 0 := by positivity
  have h2 : (10 : ℝ) ^ y ≠ 0 := ne_of_gt hy
  have key : (1 : ℝ) + ((10 : ℝ) ^ y)⁻¹ = (1 + (10 : ℝ) ^ y) * ((10 : ℝ) ^ y)⁻¹ := by
    field_simp
    ring
  rw [hinv, key, one_div ((1 + (10 : ℝ) ^ y) * ((10 : ℝ) ^ y)⁻¹), mul_inv, inv_inv,
    sub_eq_iff_eq_add]
  field_simp
  ring

/-- The value of `10 ^ (-400/400)` used by the concrete counterexample. -/
theorem rpow_at_neg400 : (10 : ℝ) ^ (-((400 : Int) : ℝ) / 400) = (10 : ℝ)⁻¹ := by
  have h : -(((400 : Int)) : ℝ) / 400 = ((-1 : ℤ) : ℝ) := by push_cast; norm_num
  rw [h, Real.rpow_intCast]
  norm_num

/-- Claim C5 counterexample: for a relative score of +400 computed from
Black's perspective, the spec's complementary transform would give
`pWhite = 1/11`, but the code ignores the relative side and returns
`pWhite = 10/11`. -/
theorem c5_counterexample :
    calculate_win_probabilities_rel false 400 ≠ spec_win_probabilities false 400 := by
  intro h
  have h1 := congrArg Prod.fst h
  simp only [calculate_win_probabilities_rel, spec_win_probabilities, win_probs_of_cp,
    if_pos (show (0 : Int) < 400 by norm_num), Bool.false_eq_true, if_false] at h1
  rw [rpow_at_neg400] at h1
  norm_num at h1

/-- Claim C5 amended: the estimator ignores which side the relative
score is computed from: for every `e` (and either relative side) it
returns `pWhite = 1/(1+10^(-e/400))` with the complementary `pBlack`;
`e = 0` yields exactly `(0.5, 0.5)` and the pair always sums to 1. -/
theorem c5_amended_logistic (relWhite : Bool) (e : Int) :
    (calculate_win_probabilities_rel relWhite e).1
        = 1 / (1 + (10 : ℝ) ^ (-(e : ℝ) / 400))
    ∧ (calculate_win_probabilities_rel relWhite e).1
        + (calculate_win_probabilities_rel relWhite e).2 = 1
    ∧ calculate_win_probabilities_rel relWhite 0 = (0.5, 0.5) := by
  refine ⟨?_, ?_, ?_⟩
  · unfold calculate_win_probabilities_rel win_probs_of_cp
    rcases lt_trichotomy (0 : Int) e with hpos | hzero | hneg
    · rw [if_pos hpos]
    · rw [if_neg (by omega), if_neg (by omega)]
      have he : -((e : ℝ)) / 400 = 0 := by
        rw [← hzero]; norm_num
      rw [he, Real.rpow_zero]
      norm_num
    · rw [if_neg (by omega), if_pos hneg]
      have h := one_sub_inv_logistic ((e : ℝ) / 400)
      rw [← neg_div] at h
      exact h
  · unfold calculate_win_probabilities_rel win_probs_of_cp
    rcases lt_trichotomy (0 : Int) e with hpos | hzero | hneg
    · rw [if_pos hpos]; ring
    · rw [if_neg (by omega), if_neg (by omega)]; norm_num
    · rw [if_neg (by omega), if_pos hneg]; ring
  · unfold calculate_win_probabilities_rel win_probs_of_cp
    norm_num

/-- Claim C6: (code bug) on a forced-mate marker `Score.score()` is
`None`; the estimator then evaluates `None > 0`, raising `TypeError`,
and the loop propagates it: the session crashes instead of substituting
a saturating probability. -/
theorem c6_mate_score_raises (ctx : LoopCtx) (rules : Rules) (s : SessionState)
    (n : Int) (u : String) (em : PlayResult) (ts : String)
    (hshow : ctx.showScore = true) :
    calculate_win_probabilities (.mate n) = .error .typeError
    ∧ loop_body ctx rules s (.mate n) u em ts
        = .raised .typeError
            { s with evalCount := s.evalCount + 1,
                     requests := s.requests ++ [⟨.analyse, ctx.limits, []⟩] } := by
  refine ⟨rfl, ?_⟩
  simp [loop_body, hshow, relative_score]

/-- Applying (or failing to apply) a move touches only the board, the
mainline and the transcript: `evalCount`, `printed`, `requests` and
`savedFiles` pass through `after_move` unchanged. -/
theorem after_move_fields (ctx : LoopCtx) (rules : Rules) (s : SessionState)
    (scoreInfo : Option Int) (mv : Move ⊕ PlayResult) :
    ((after_move ctx rules s scoreInfo mv).state).evalCount = s.evalCount
    ∧ ((after_move ctx rules s scoreInfo mv).state).printed = s.printed
    ∧ ((after_move ctx rules s scoreInfo mv).state).requests = s.requests
    ∧ ((after_move ctx rules s scoreInfo mv).state).savedFiles = s.savedFiles := by
  rcases mv with m | pr
  · cases h : from_uci (Move.uci m) <;>
      simp [after_move, h, StepOutcome.state]
  · simp [after_move, StepOutcome.state]

/-- `after_move` leaves `evalCount` unchanged. -/
theorem after_move_evalCount (ctx : LoopCtx) (rules : Rules) (s : SessionState)
    (scoreInfo : Option Int) (mv : Move ⊕ PlayResult) :
    ((after_move ctx rules s scoreInfo mv).state).evalCount = s.evalCount :=
  (after_move_fields ctx rules s scoreInfo mv).1

/-- `after_move` leaves the console output unchanged. -/
theorem after_move_printed (ctx : LoopCtx) (rules : Rules) (s : SessionState)
    (scoreInfo : Option Int) (mv : Move ⊕ PlayResult) :
    ((after_move ctx rules s scoreInfo mv).state).printed = s.printed :=
  (after_move_fields ctx rules s scoreInfo mv).2.1

/-- `after_move` issues no engine request. -/
theorem after_move_requests (ctx : LoopCtx) (rules : Rules) (s : SessionState)
    (scoreInfo : Option Int) (mv : Move ⊕ PlayResult) :
    ((after_move ctx rules s scoreInfo mv).state).requests = s.requests :=
  (after_move_fields ctx rules s scoreInfo mv).2.2.1

/-- With no log file, `after_move` writes nothing to the transcript. -/
theorem after_move_transcript_nolog (ctx : LoopCtx) (rules : Rules)
    (s : SessionState) (scoreInfo : Option Int) (mv : Move ⊕ PlayResult)
    (hlog : ctx.logEnabled = false) :
    ((after_move ctx rules s scoreInfo mv).state).transcript = s.transcript := by
  rcases mv with m | pr
  · cases h : from_uci (Move.uci m) <;>
      simp [after_move, h, hlog, StepOutcome.state]
  · simp [after_move, StepOutcome.state]

/-- The command dispatch never changes `evalCount`. -/
theorem loop_after_eval_evalCount (ctx : LoopCtx) (rules : Rules) (s : SessionState)
    (scoreInfo : Option Int) (u : String) (em : PlayResult) (ts : String) :
    ((loop_body_after_eval ctx rules s scoreInfo u em ts).state).evalCount
      = s.evalCount := by
  unfold loop_body_after_eval
  split
  · split
    · rfl
    · split
      · rfl
      · split
        · simp [after_move_evalCount]
        · split
          · rfl
          · simp [after_move_evalCount]
  · simp [after_move_evalCount]

/-- The command dispatch only ever appends to the console output. -/
theorem loop_after_eval_printed (ctx : LoopCtx) (rules : Rules) (s : SessionState)
    (scoreInfo : Option Int) (u : String) (em : PlayResult) (ts : String) :
    ∃ extra, ((loop_body_after_eval ctx rules s scoreInfo u em ts).state).printed
        = s.printed ++ extra := by
  unfold loop_body_after_eval
  split
  · split
    · exact ⟨[], by simp [StepOutcome.state]⟩
    · split
      · exact ⟨_, rfl⟩
      · split
        · exact ⟨[], by simp [after_move_printed]⟩
        · split
          · exact ⟨[], by simp [StepOutcome.state]⟩
          · exact ⟨[], by simp [after_move_printed]⟩
  · exact ⟨[], by simp [after_move_printed]⟩

/-- With no log file, the command dispatch writes nothing to the
transcript. -/
theorem loop_after_eval_transcript_nolog (ctx : LoopCtx) (rules : Rules)
    (s : SessionState) (scoreInfo : Option Int) (u : String) (em : PlayResult)
    (ts : String) (hlog : ctx.logEnabled = false) :
    ((loop_body_after_eval ctx rules s scoreInfo u em ts).state).transcript
      = s.transcript := by
  unfold loop_body_after_eval
  split
  · split
    · rfl
    · split
      · rfl
      · split
        · exact after_move_transcript_nolog ctx rules _ scoreInfo _ hlog
        · split
          · rfl
          · exact after_move_transcript_nolog ctx rules _ scoreInfo _ hlog
  · exact after_move_transcript_nolog ctx rules _ scoreInfo _ hlog

/-- With no log file, one whole loop iteration writes nothing to the
transcript. -/
theorem loop_body_transcript_nolog (ctx : LoopCtx) (rules : Rules)
    (s : SessionState) (evalRes : EngineScore) (u : String) (em : PlayResult)
    (ts : String) (hlog : ctx.logEnabled = false) :
    ((loop_body ctx rules s evalRes u em ts).state).transcript = s.transcript := by
  unfold loop_body
  split
  · split
    · rfl
    · exact loop_after_eval_transcript_nolog ctx rules _ _ u em ts hlog
  · exact loop_after_eval_transcript_nolog ctx rules _ _ u em ts hlog

/-- When logging is on, a successfully applied move is logged with this
iteration's probability annotation right before the movetext line. -/
theorem after_move_logged (ctx : LoopCtx) (rules : Rules) (s : SessionState)
    (e : Int) (mv : Move ⊕ PlayResult) (hlog : ctx.logEnabled = true) :
    ∀ s', after_move ctx rules s (some e) mv = .continued s' →
      s'.transcript = s.transcript
        ++ [.probLine e ctx.playerSide, .moveLine s'.nodeMoves] := by
  rcases mv with m | pr
  · cases h : from_uci (Move.uci m) with
    | none => intro s' hh; simp [after_move, h] at hh
    | some m2 =>
        intro s' hh
        simp only [after_move, h] at hh
        cases hh
        simp [hlog]
  · intro s' hh
    simp [after_move] at hh

/-- When logging is on and the dispatch advanced the mainline, the
transcript gained exactly the probability annotation and the move
line. -/
theorem loop_after_eval_logged (ctx : LoopCtx) (rules : Rules) (s : SessionState)
    (e : Int) (u : String) (em : PlayResult) (ts : String)
    (hlog : ctx.logEnabled = true) :
    ∀ s', loop_body_after_eval ctx rules s (some e) u em ts = .continued s' →
      ¬ s'.nodeMoves = s.nodeMoves →
      s'.transcript = s.transcript
        ++ [.probLine e ctx.playerSide, .moveLine s'.nodeMoves] := by
  intro s' hh hne
  unfold loop_body_after_eval at hh
  revert hh
  split
  · split
    · intro hh; cases hh; exact absurd rfl hne
    · split
      · intro hh; cases hh
      · split
        · intro hh
          have := after_move_logged ctx rules _ e (.inr em) hlog s' hh
          simpa using this
        · split
          · intro hh; cases hh; exact absurd rfl hne
          · intro hh
            exact after_move_logged ctx rules _ e _ hlog s' hh
  · intro hh
    have := after_move_logged ctx rules _ e (.inl em.move) hlog s' hh
    simpa using this

/-- `get_user_move` rejects input that fails the UCI pattern and parsed
moves outside the legal-move set. -/
theorem get_user_move_rejects (legal : Move → Bool) (u : String)
    (hbad : is_uci_move u = false ∨ ∀ m, from_uci u = some m → legal m = false) :
    get_user_move legal u = .error () := by
  rcases hbad with h | h
  · simp [get_user_move, h]
  · by_cases hu : is_uci_move u = true
    · cases hfu : from_uci u with
      | none => simp [get_user_move, hu, hfu]
      | some m => simp [get_user_move, hu, hfu, h m hfu]
    · simp [get_user_move, hu]

/-- When awaiting human input, anything that is neither a recognized
command nor an accepted move leaves the dispatch with `continue` and the
state untouched. -/
theorem loop_after_eval_rejects (ctx : LoopCtx) (rules : Rules) (s : SessionState)
    (scoreInfo : Option Int) (u : String) (em : PlayResult) (ts : String)
    (hturn : s.board.turn = ctx.playerSide)
    (h1 : ¬ u = "!help") (h2 : ¬ u = "!saveState")
    (h3 : ¬ u.take 11 = "!saveState ") (h4 : ¬ u = "!bestMove")
    (hbad : is_uci_move u = false
      ∨ ∀ m, from_uci u = some m → rules.legal s.board m = false) :
    loop_body_after_eval ctx rules s scoreInfo u em ts = .continued s := by
  unfold loop_body_after_eval
  rw [if_pos hturn, if_neg h1, if_neg (not_or.mpr ⟨h2, h3⟩), if_neg h4,
    get_user_move_rejects (rules.legal s.board) u hbad]

/-- Claim C1: an entered string that is no recognized command and either
fails to parse as a coordinate move or is not legal is rejected with a
re-prompt: the loop continues with position, history, transcript and
saved files unchanged. -/
theorem c1_invalid_input_rejected (ctx : LoopCtx) (rules : Rules) (s : SessionState)
    (evalRes : EngineScore) (u : String) (em : PlayResult) (ts : String)
    (hturn : s.board.turn = ctx.playerSide)
    (heval : ctx.showScore = true → (relative_score evalRes).isSome = true)
    (h1 : ¬ u = "!help") (h2 : ¬ u = "!saveState")
    (h3 : ¬ u.take 11 = "!saveState ") (h4 : ¬ u = "!bestMove")
    (hbad : is_uci_move u = false
      ∨ ∀ m, from_uci u = some m → rules.legal s.board m = false) :
    ∃ s', loop_body ctx rules s evalRes u em ts = .continued s'
      ∧ s'.board = s.board ∧ s'.nodeMoves = s.nodeMoves
      ∧ s'.transcript = s.transcript ∧ s'.savedFiles = s.savedFiles := by
  by_cases hs : ctx.showScore = true
  · obtain ⟨e, he⟩ := Option.isSome_iff_exists.mp (heval hs)
    refine ⟨{ s with evalCount := s.evalCount + 1,
                     requests := s.requests ++ [⟨.analyse, ctx.limits, []⟩],
                     printed := s.printed ++ [.probLine e ctx.playerSide] },
            ?_, rfl, rfl, rfl, rfl⟩
    unfold loop_body
    rw [if_pos hs, he]
    exact loop_after_eval_rejects ctx rules _ (some e) u em ts hturn h1 h2 h3 h4 hbad
  · refine ⟨s, ?_, rfl, rfl, rfl, rfl⟩
    unfold loop_body
    rw [if_neg hs]
    exact loop_after_eval_rejects ctx rules s none u em ts hturn h1 h2 h3 h4 hbad

/-- Claim C1 witness: the non-move string `hello` and the well-formed
but illegal move `e2e5` are both rejected from the start position. -/
theorem c1_invalid_input_rejected_witness :
    (Board.start.turn = ctxNoLog.playerSide
      ∧ ∃ s', loop_body ctxNoLog rulesNoLegal { board := Board.start } (.cp 0)
            "hello" default "" = .continued s'
          ∧ s'.board = Board.start ∧ s'.nodeMoves = ([] : List Move)
          ∧ s'.transcript = ([] : List LogLine)
          ∧ s'.savedFiles = ([] : List (String × Board)))
    ∧ ∃ s', loop_body ctxNoLog rulesNoLegal { board := Board.start } (.cp 0)
          "e2e5" default "" = .continued s'
        ∧ s'.board = Board.start := by
  constructor
  · refine ⟨rfl, ?_⟩
    exact c1_invalid_input_rejected ctxNoLog rulesNoLegal { board := Board.start }
      (.cp 0) "hello" default "" rfl (by intro h; exact absurd h (by decide))
      (by decide) (by decide) (by decide) (by decide) (Or.inl (by decide))
  · obtain ⟨s', h, hb, -, -, -⟩ :=
      c1_invalid_input_rejected ctxNoLog rulesNoLegal { board := Board.start }
        (.cp 0) "e2e5" default "" rfl (by intro h; exact absurd h (by decide))
        (by decide) (by decide) (by decide) (by decide)
        (Or.inr (fun m _ => rfl))
    exact ⟨s', h, hb⟩

/-- Claim C4: (code bug) `!bestMove` sends the engine a request with the
unconstrained default `Limit()`, but then binds `move` to the whole
`PlayResult` instead of `result.move`; pushing it raises, so no move is
ever applied and the turn never passes. -/
theorem loop_after_eval_bestMove (ctx : LoopCtx) (rules : Rules) (s : SessionState)
    (scoreInfo : Option Int) (em : PlayResult) (ts : String)
    (hturn : s.board.turn = ctx.playerSide) :
    loop_body_after_eval ctx rules s scoreInfo "!bestMove" em ts
      = .raised .attributeError
          { s with requests := s.requests
              ++ [⟨.play, EngineLimit.unconstrained, []⟩] } := by
  unfold loop_body_after_eval
  rw [if_pos hturn, if_neg (by decide), if_neg (by decide), if_pos rfl]
  rfl

theorem c4_bestMove_crashes (ctx : LoopCtx) (rules : Rules) (s : SessionState)
    (evalRes : EngineScore) (em : PlayResult) (ts : String)
    (hturn : s.board.turn = ctx.playerSide)
    (heval : ctx.showScore = true → (relative_score evalRes).isSome = true) :
    ∃ s', loop_body ctx rules s evalRes "!bestMove" em ts
        = .raised .attributeError s'
      ∧ s'.requests = s.requests
          ++ (if ctx.showScore = true then [⟨.analyse, ctx.limits, []⟩] else [])
          ++ [⟨.play, EngineLimit.unconstrained, []⟩]
      ∧ s'.board = s.board ∧ s'.nodeMoves = s.nodeMoves := by
  by_cases hs : ctx.showScore = true
  · obtain ⟨e, he⟩ := Option.isSome_iff_exists.mp (heval hs)
    refine ⟨{ s with evalCount := s.evalCount + 1,
                     requests := (s.requests ++ [⟨.analyse, ctx.limits, []⟩])
                       ++ [⟨.play, EngineLimit.unconstrained, []⟩],
                     printed := s.printed ++ [.probLine e ctx.playerSide] },
            ?_, ?_, rfl, rfl⟩
    · unfold loop_body
      rw [if_pos hs, he]
      exact loop_after_eval_bestMove ctx rules _ (some e) em ts hturn
    · simp [hs]
  · refine ⟨{ s with requests := s.requests
                       ++ [⟨.play, EngineLimit.unconstrained, []⟩] },
            ?_, ?_, rfl, rfl⟩
    · unfold loop_body
      rw [if_neg hs]
      exact loop_after_eval_bestMove ctx rules s none em ts hturn
    · simp [hs]

/-- Claim C4 witness: `!bestMove` from the start position. -/
theorem c4_bestMove_crashes_witness :
    Board.start.turn = ctxNoLog.playerSide
    ∧ ∃ s', loop_body ctxNoLog rulesFlip { board := Board.start } (.cp 0)
          "!bestMove" ⟨⟨4, 1, 4, 3, none⟩⟩ "" = .raised .attributeError s'
        ∧ s'.requests = [⟨.play, EngineLimit.unconstrained, []⟩]
        ∧ s'.board = Board.start ∧ s'.nodeMoves = ([] : List Move) := by
  refine ⟨rfl, ?_⟩
  obtain ⟨s', h, hr, hb, hn⟩ :=
    c4_bestMove_crashes ctxNoLog rulesFlip { board := Board.start } (.cp 0)
      ⟨⟨4, 1, 4, 3, none⟩⟩ "" rfl (by intro h; exact absurd h (by decide))
  exact ⟨s', h, by simpa [ctxNoLog] using hr, hb, hn⟩

/-- The `!saveState` branch without a path argument: snapshot written to
the timestamp-named file, informational message printed, immediate
`return 0` with nothing written to the transcript. -/
theorem loop_after_eval_saveState (ctx : LoopCtx) (rules : Rules) (s : SessionState)
    (scoreInfo : Option Int) (em : PlayResult) (ts : String)
    (hturn : s.board.turn = ctx.playerSide) :
    loop_body_after_eval ctx rules s scoreInfo "!saveState" em ts
      = .savedExit ("log_" ++ ts ++ ".chess")
          { s with savedFiles := s.savedFiles
                     ++ [("log_" ++ ts ++ ".chess", s.board)],
                   printed := s.printed
                     ++ [.infoLine ("Saved chess game in "
                          ++ ("log_" ++ ts ++ ".chess"))] } := by
  unfold loop_body_after_eval
  rw [if_pos hturn, if_neg (by decide), if_pos (Or.inl rfl)]
  rfl

/-- Claim C8: a mid-game `!saveState` with no path argument serializes
the current position to `log_<timestamp>.chess`, prints an informational
message, and ends the session at once without writing any transcript
line (in particular no game-result line). -/
theorem c8_saveState_default_path (ctx : LoopCtx) (rules : Rules) (s : SessionState)
    (evalRes : EngineScore) (em : PlayResult) (ts : String)
    (hturn : s.board.turn = ctx.playerSide)
    (heval : ctx.showScore = true → (relative_score evalRes).isSome = true) :
    ∃ s', loop_body ctx rules s evalRes "!saveState" em ts
        = .savedExit ("log_" ++ ts ++ ".chess") s'
      ∧ s'.savedFiles = s.savedFiles ++ [("log_" ++ ts ++ ".chess", s.board)]
      ∧ s'.transcript = s.transcript
      ∧ s'.board = s.board ∧ s'.nodeMoves = s.nodeMoves
      ∧ LogLine.infoLine ("Saved chess game in " ++ ("log_" ++ ts ++ ".chess"))
          ∈ s'.printed := by
  by_cases hs : ctx.showScore = true
  · obtain ⟨e, he⟩ := Option.isSome_iff_exists.mp (heval hs)
    refine ⟨{ s with evalCount := s.evalCount + 1,
                     requests := s.requests ++ [⟨.analyse, ctx.limits, []⟩],
                     savedFiles := s.savedFiles
                       ++ [("log_" ++ ts ++ ".chess", s.board)],
                     printed := (s.printed ++ [.probLine e ctx.playerSide])
                       ++ [.infoLine ("Saved chess game in "
                            ++ ("log_" ++ ts ++ ".chess"))] },
            ?_, rfl, rfl, rfl, rfl, by simp⟩
    unfold loop_body
    rw [if_pos hs, he]
    exact loop_after_eval_saveState ctx rules _ (some e) em ts hturn
  · refine ⟨{ s with savedFiles := s.savedFiles
                       ++ [("log_" ++ ts ++ ".chess", s.board)],
                     printed := s.printed
                       ++ [.infoLine ("Saved chess game in "
                            ++ ("log_" ++ ts ++ ".chess"))] },
            ?_, rfl, rfl, rfl, rfl, by simp⟩
    unfold loop_body
    rw [if_neg hs]
    exact loop_after_eval_saveState ctx rules s none em ts hturn

/-- Claim C8 witness: `!saveState` entered from the start position. -/
theorem c8_saveState_default_path_witness :
    Board.start.turn = ctxNoLog.playerSide
    ∧ ∃ s', loop_body ctxNoLog rulesFlip { board := Board.start } (.cp 0)
          "!saveState" default "20240101120000"
        = .savedExit ("log_" ++ "20240101120000" ++ ".chess") s'
      ∧ s'.savedFiles = [("log_" ++ "20240101120000" ++ ".chess", Board.start)]
      ∧ s'.transcript = ([] : List LogLine) := by
  refine ⟨rfl, ?_⟩
  obtain ⟨s', h, hsv, htr, -, -, -⟩ :=
    c8_saveState_default_path ctxNoLog rulesFlip { board := Board.start } (.cp 0)
      default "20240101120000" rfl (by intro h; exact absurd h (by decide))
  exact ⟨s', h, by simpa using hsv, htr⟩

/-- The engine-turn branch: one `engine.play` request carrying the
configured limits and the engine-options mapping, whose returned
`result.move` is then pushed. -/
theorem loop_after_eval_engineTurn (ctx : LoopCtx) (rules : Rules) (s : SessionState)
    (scoreInfo : Option Int) (u : String) (em : PlayResult) (ts : String)
    (hturn : ¬ s.board.turn = ctx.playerSide) :
    loop_body_after_eval ctx rules s scoreInfo u em ts
      = after_move ctx rules
          { s with requests := s.requests
              ++ [⟨.play, ctx.limits, ctx.engineConfig⟩] }
          scoreInfo (.inl em.move) := by
  unfold loop_body_after_eval
  rw [if_neg hturn]

/-- Claim C10: when the configuration has an `[EngineConfig]` section,
the options mapping sent with each engine move request is exactly that
whole section — the `path` key naming the engine binary included. -/
theorem c10_engine_options_include_path (cfg : ConfigData)
    (sec : List (String × String)) (apath : String) (ctx : LoopCtx)
    (rules : Rules) (s : SessionState) (evalRes : EngineScore) (u : String)
    (em : PlayResult) (ts : String)
    (hsec : cfg.engineSection = some sec)
    (hpath : ("path", apath) ∈ sec)
    (hcfg : ctx.engineConfig = engine_config_of cfg)
    (hturn : ¬ s.board.turn = ctx.playerSide)
    (heval : ctx.showScore = true → (relative_score evalRes).isSome = true) :
    ∃ req : EngineRequest,
      ((loop_body ctx rules s evalRes u em ts).state).requests
          = s.requests
            ++ (if ctx.showScore = true then [⟨.analyse, ctx.limits, []⟩] else [])
            ++ [req]
      ∧ req.options = sec
      ∧ ("path", apath) ∈ req.options
      ∧ ∀ kv ∈ sec, kv ∈ req.options := by
  have hopts : ctx.engineConfig = sec := by
    rw [hcfg]; unfold engine_config_of; rw [hsec]
  refine ⟨⟨.play, ctx.limits, ctx.engineConfig⟩, ?_, hopts,
    hopts ▸ hpath, fun kv h => hopts ▸ h⟩
  by_cases hs : ctx.showScore = true
  · obtain ⟨e, he⟩ := Option.isSome_iff_exists.mp (heval hs)
    have h1 : loop_body ctx rules s evalRes u em ts
        = after_move ctx rules
            { s with evalCount := s.evalCount + 1,
                     printed := s.printed ++ [.probLine e ctx.playerSide],
                     requests := (s.requests ++ [⟨.analyse, ctx.limits, []⟩])
                       ++ [⟨.play, ctx.limits, ctx.engineConfig⟩] }
            (some e) (.inl em.move) := by
      unfold loop_body
      rw [if_pos hs, he]
      exact loop_after_eval_engineTurn ctx rules _ (some e) u em ts hturn
    have h2 := (after_move_fields ctx rules
      { s with evalCount := s.evalCount + 1,
               printed := s.printed ++ [.probLine e ctx.playerSide],
               requests := (s.requests ++ [⟨.analyse, ctx.limits, []⟩])
                 ++ [⟨.play, ctx.limits, ctx.engineConfig⟩] }
      (some e) (.inl em.move)).2.2.1
    rw [h1, h2]
    simp [hs]
  · have h1 : loop_body ctx rules s evalRes u em ts
        = after_move ctx rules
            { s with requests := s.requests
                ++ [⟨.play, ctx.limits, ctx.engineConfig⟩] }
            none (.inl em.move) := by
      unfold loop_body
      rw [if_neg hs]
      exact loop_after_eval_engineTurn ctx rules s none u em ts hturn
    have h2 := (after_move_fields ctx rules
      { s with requests := s.requests
          ++ [⟨.play, ctx.limits, ctx.engineConfig⟩] }
      none (.inl em.move)).2.2.1
    rw [h1, h2]
    simp [hs]

/-- Claim C10 witness: a configuration whose `[EngineConfig]` section
holds `path` and `Threads`; on the engine's turn the request options
carry both, `path` included. -/
theorem c10_engine_options_include_path_witness :
    cfgWithEngine.engineSection
        = some [("path", "engines/stockfish"), ("Threads", "4")]
    ∧ ("path", "engines/stockfish")
        ∈ [(("path" : String), ("engines/stockfish" : String)), ("Threads", "4")]
    ∧ ctxEngineCfg.engineConfig = engine_config_of cfgWithEngine
    ∧ ¬ Board.start.turn = ctxEngineCfg.playerSide
    ∧ ∃ req : EngineRequest,
        ((loop_body ctxEngineCfg rulesFlip { board := Board.start } (.cp 0) ""
            ⟨⟨4, 1, 4, 3, none⟩⟩ "").state).requests
            = [] ++ (if ctxEngineCfg.showScore = true
                then [⟨.analyse, ctxEngineCfg.limits, []⟩] else []) ++ [req]
        ∧ req.options = [("path", "engines/stockfish"), ("Threads", "4")]
        ∧ ("path", "engines/stockfish") ∈ req.options := by
  refine ⟨rfl, by decide, rfl, by decide, ?_⟩
  obtain ⟨req, h1, h2, h3, -⟩ :=
    c10_engine_options_include_path cfgWithEngine
      [("path", "engines/stockfish"), ("Threads", "4")] "engines/stockfish"
      ctxEngineCfg rulesFlip { board := Board.start } (.cp 0) ""
      ⟨⟨4, 1, 4, 3, none⟩⟩ "" rfl (by decide) rfl (by decide)
      (by intro h; exact absurd h (by decide))
  exact ⟨req, h1, h2, h3⟩

/-- Claim C6 witness: evaluated at mate-in-3 with the score display on. -/
theorem c6_mate_score_raises_witness :
    ctxShowLog.showScore = true
    ∧ calculate_win_probabilities (.mate 3) = .error .typeError
    ∧ loop_body ctxShowLog rulesFlip { board := Board.start } (.mate 3) "" default ""
        = .raised .typeError
            { ({ board := Board.start } : SessionState) with
               evalCount := 1,
               requests := [⟨.analyse, ctxShowLog.limits, []⟩] } := by
  have h := c6_mate_score_raises ctxShowLog rulesFlip { board := Board.start }
    3 "" default "" rfl
  exact ⟨rfl, h.1, h.2⟩

/-- Claim C9 counterexample: with the score display enabled, answering
`!help` and then playing `e2e4` makes the coordinator evaluate the
position twice although only one half-move is completed — the
evaluation is per loop iteration, not exactly once per half-move. -/
theorem c9_counterexample :
    c9run.state.evalCount = 2
    ∧ c9run.state.nodeMoves.length = 1
    ∧ ¬ c9run.state.evalCount = c9run.state.nodeMoves.length := by
  refine ⟨?_, ?_, ?_⟩ <;> decide

/-- Claim C9 amended: with the score display enabled the win probability
is computed exactly once per loop iteration (hence at least once per
half-move, and again after every `!help` or rejected input), before
prompting or acting; the iteration's value is printed, and when a move
is applied with logging enabled the same value is written immediately
before the move line. -/
theorem c9_amended_eval_per_iteration (ctx : LoopCtx) (rules : Rules)
    (s : SessionState) (evalRes : EngineScore) (e : Int) (u : String)
    (em : PlayResult) (ts : String)
    (hshow : ctx.showScore = true)
    (he : relative_score evalRes = some e) :
    ((loop_body ctx rules s evalRes u em ts).state).evalCount = s.evalCount + 1
    ∧ ((loop_body ctx rules s evalRes u em ts).state).printed.take
        (s.printed.length + 1) = s.printed ++ [.probLine e ctx.playerSide]
    ∧ (∀ s', loop_body ctx rules s evalRes u em ts = .continued s' →
        ctx.logEnabled = true → ¬ s'.nodeMoves = s.nodeMoves →
        s'.transcript = s.transcript
          ++ [.probLine e ctx.playerSide, .moveLine s'.nodeMoves]) := by
  have hlb : loop_body ctx rules s evalRes u em ts
      = loop_body_after_eval ctx rules
          { s with evalCount := s.evalCount + 1,
                   requests := s.requests ++ [⟨.analyse, ctx.limits, []⟩],
                   printed := s.printed ++ [.probLine e ctx.playerSide] }
          (some e) u em ts := by
    unfold loop_body
    rw [if_pos hshow, he]
  refine ⟨?_, ?_, ?_⟩
  · rw [hlb]
    exact loop_after_eval_evalCount ctx rules _ (some e) u em ts
  · rw [hlb]
    obtain ⟨extra, hx⟩ := loop_after_eval_printed ctx rules
      { s with evalCount := s.evalCount + 1,
               requests := s.requests ++ [⟨.analyse, ctx.limits, []⟩],
               printed := s.printed ++ [.probLine e ctx.playerSide] }
      (some e) u em ts
    rw [hx]
    show ((s.printed ++ [LogLine.probLine e ctx.playerSide]) ++ extra).take
        (s.printed.length + 1) = s.printed ++ [LogLine.probLine e ctx.playerSide]
    rw [List.take_left' (by simp)]
  · intro s' h hlog hne
    rw [hlb] at h
    have := loop_after_eval_logged ctx rules
      { s with evalCount := s.evalCount + 1,
               requests := s.requests ++ [⟨.analyse, ctx.limits, []⟩],
               printed := s.printed ++ [.probLine e ctx.playerSide] }
      e u em ts hlog s' h hne
    simpa using this

/-- Claim C9 amended witness: one clean iteration in which the human
plays `e2e4` with score display and logging on. -/
theorem c9_amended_eval_per_iteration_witness :
    ctxShowLog.showScore = true
    ∧ relative_score (.cp 30) = some 30
    ∧ (((loop_body ctxShowLog rulesFlip { board := Board.start } (.cp 30)
          "e2e4" default "").state).evalCount = 0 + 1
    ∧ ((loop_body ctxShowLog rulesFlip { board := Board.start } (.cp 30)
          "e2e4" default "").state).printed.take (([] : List LogLine).length + 1)
        = ([] : List LogLine) ++ [LogLine.probLine 30 ctxShowLog.playerSide]
    ∧ (∀ s', loop_body ctxShowLog rulesFlip { board := Board.start } (.cp 30)
          "e2e4" default "" = .continued s' →
        ctxShowLog.logEnabled = true → ¬ s'.nodeMoves = ([] : List Move) →
        s'.transcript = ([] : List LogLine)
          ++ [LogLine.probLine 30 ctxShowLog.playerSide,
              LogLine.moveLine s'.nodeMoves])) := by
  exact ⟨rfl, rfl,
    c9_amended_eval_per_iteration ctxShowLog rulesFlip { board := Board.start }
      (.cp 30) 30 "e2e4" default "" rfl rfl⟩

/-- With no log file, `run` never writes a transcript line and can never
finish cleanly (every epilogue raises before `finishedOk`). -/
theorem run_nolog (ctx : LoopCtx) (rules : Rules) (ts : String)
    (hlog : ctx.logEnabled = false) :
    ∀ (fuel : Nat) (inputs : List String) (evals : List EngineScore)
      (emoves : List PlayResult) (s : SessionState),
      ((run ctx rules ts fuel inputs evals emoves s).state).transcript
          = s.transcript
      ∧ ∀ s', ¬ run ctx rules ts fuel inputs evals emoves s = .finishedOk s' := by
  intro fuel
  induction fuel with
  | zero =>
      intro inputs evals emoves s
      exact ⟨rfl, fun s' h => RunOutcome.noConfusion h⟩
  | succ n ih =>
      intro inputs evals emoves s
      have hlog' : ¬ ctx.logEnabled = true := by simp [hlog]
      simp only [run]
      split
      · unfold epilogue
        rw [if_neg hlog']
        exact ⟨rfl, fun s' h => RunOutcome.noConfusion h⟩
      · split
        · exact ⟨rfl, fun s' h => RunOutcome.noConfusion h⟩
        · split
          · exact ⟨rfl, fun s' h => RunOutcome.noConfusion h⟩
          · split
            · exact ⟨rfl, fun s' h => RunOutcome.noConfusion h⟩
            · split
              case _ s' heq =>
                obtain ⟨ht, hok⟩ := ih _ _ _ s'
                refine ⟨?_, hok⟩
                rw [ht]
                have h1 : ((loop_body ctx rules s (evals.headD default)
                    (inputs.headD "") (emoves.headD default) ts).state).transcript
                    = s.transcript :=
                  loop_body_transcript_nolog ctx rules s _ _ _ ts hlog
                rw [heq] at h1
                exact h1
              case _ p s' heq =>
                refine ⟨?_, fun s'' h => RunOutcome.noConfusion h⟩
                have h1 : ((loop_body ctx rules s (evals.headD default)
                    (inputs.headD "") (emoves.headD default) ts).state).transcript
                    = s.transcript :=
                  loop_body_transcript_nolog ctx rules s _ _ _ ts hlog
                rw [heq] at h1
                exact h1
              case _ e s' heq =>
                refine ⟨?_, fun s'' h => RunOutcome.noConfusion h⟩
                have h1 : ((loop_body ctx rules s (evals.headD default)
                    (inputs.headD "") (emoves.headD default) ts).state).transcript
                    = s.transcript :=
                  loop_body_transcript_nolog ctx rules s _ _ _ ts hlog
                rw [heq] at h1
                exact h1

/-- Claim C2: (code bug) without a log file the header and per-move
writes are correctly skipped and no transcript line is ever produced,
but the session can never complete normally: reaching a terminal
position makes line 183 call `log_file.write` on `None`, raising
`AttributeError` instead of finishing after displaying the result. -/
theorem c2_missing_result_guard (ctx : LoopCtx) (rules : Rules) (ts dt : String)
    (fuel : Nat) (inputs : List String) (evals : List EngineScore)
    (emoves : List PlayResult) (saved : Option Board)
    (hlog : ctx.logEnabled = false) :
    (play_chess_init ctx saved dt).transcript = []
    ∧ ((run ctx rules ts fuel inputs evals emoves
          (play_chess_init ctx saved dt)).state).transcript = []
    ∧ (∀ s', ¬ run ctx rules ts fuel inputs evals emoves
          (play_chess_init ctx saved dt) = .finishedOk s')
    ∧ (rules.gameOver (play_chess_init ctx saved dt).board = true → ¬ fuel = 0 →
        ∃ s', run ctx rules ts fuel inputs evals emoves
            (play_chess_init ctx saved dt) = .finishedRaised .attributeError s') := by
  have hlog' : ¬ ctx.logEnabled = true := by simp [hlog]
  have hinit : (play_chess_init ctx saved dt).transcript = [] := by
    unfold play_chess_init
    rw [if_neg hlog']
  obtain ⟨ht, hok⟩ := run_nolog ctx rules ts hlog fuel inputs evals emoves
    (play_chess_init ctx saved dt)
  refine ⟨hinit, by rw [ht, hinit], hok, ?_⟩
  intro hover hfuel
  cases fuel with
  | zero => exact absurd rfl hfuel
  | succ n =>
      refine ⟨{ play_chess_init ctx saved dt with
                  printed := (play_chess_init ctx saved dt).printed
                    ++ [.resultLine (rules.resultString
                          (play_chess_init ctx saved dt).board)] }, ?_⟩
      simp only [run]
      rw [if_pos hover]
      unfold epilogue
      rw [if_neg hlog']

/-- Claim C2 witness: a no-log session whose position is terminal at
once; the run ends in the `AttributeError` crash with an empty
transcript. -/
theorem c2_missing_result_guard_witness :
    ctxNoLog.logEnabled = false
    ∧ ((play_chess_init ctxNoLog none "d").transcript = []
    ∧ ((run ctxNoLog rulesOverNow "t" 1 [] [] []
          (play_chess_init ctxNoLog none "d")).state).transcript = []
    ∧ (∀ s', ¬ run ctxNoLog rulesOverNow "t" 1 [] [] []
          (play_chess_init ctxNoLog none "d") = .finishedOk s')
    ∧ (rulesOverNow.gameOver (play_chess_init ctxNoLog none "d").board = true →
        ¬ (1 : Nat) = 0 →
        ∃ s', run ctxNoLog rulesOverNow "t" 1 [] [] []
            (play_chess_init ctxNoLog none "d")
          = .finishedRaised .attributeError s')) :=
  ⟨rfl, c2_missing_result_guard ctxNoLog rulesOverNow "t" "d" 1 [] [] [] none rfl⟩

end ChessTrain

